import Mathlib

/-!
Verification of the selective directory-mirroring engine used by
`script/sync_chromium.py` (the `dirsync` primitive and its call sites).

The engine itself (pattern filtering, scanning, diff planning, execution)
is shallowly embedded below; the orchestration script's call sites and
`main` are embedded as data in the `SyncChromium` namespace.
-/

set_option autoImplicit false

universe u

namespace Dirsync


/-- Association-list lookup keyed by strings; returns the first binding. -/
def lookupA {α : Type u} : List (String × α) → String → Option α
  | [], _ => none
  | (q, v) :: t, p => if q = p then some v else lookupA t p

/-- Remove every binding for key `p`. -/
def eraseA {α : Type u} (t : List (String × α)) (p : String) : List (String × α) :=
  t.filter (fun q => q.1 != p)

/-- Set the binding of key `p` to `v`, removing any previous binding. -/
def setA {α : Type u} (t : List (String × α)) (p : String) (v : α) : List (String × α) :=
  (p, v) :: eraseA t p

/-- Keys of an association list, in order. -/
def keys {α : Type u} (t : List (String × α)) : List String :=
  t.map Prod.fst

/-- Modelled from the spec: the four regex lists of a `FilterRule` (§3, §4.1 of
the spec; the `dirsync` library that implements them is bundled with the
repository but supplied outside `src/`). A pattern is abstracted as the
Boolean matching function it denotes on relative paths. -/
structure FilterRule where
  only : List (String → Bool)
  exclude : List (String → Bool)
  incl : List (String → Bool)
  ignore : List (String → Bool)

/-- Modelled from the spec: `PatternFilterSet.matches` precedence (§4.1):
1. non-empty `only` with no match excludes; 2. an `exclude` match excludes
unless an `incl` (include) pattern also matches; 3. an `ignore` match
excludes; 4. otherwise the path is included. -/
def FilterRule.matches (r : FilterRule) (path : String) : Bool :=
  if !r.only.isEmpty && !(r.only.any (fun q => q path)) then false
  else if r.exclude.any (fun q => q path) && !(r.incl.any (fun q => q path)) then false
  else if r.ignore.any (fun q => q path) then false
  else true

/-- Concrete rule exhibiting that the include-overrides-exclude sentence is
incomplete: one pattern matching "a" sits in `exclude`, `incl` and `ignore`. -/
def c3Rule : FilterRule :=
  { only := []
    exclude := [fun s => s == "a"]
    incl := [fun s => s == "a"]
    ignore := [fun s => s == "a"] }

/-- Modelled from the spec: the kind of a scanned entry (§3 `FileEntry`;
symlinks are followed for metadata, so a snapshot entry is a file or a
directory). -/
inductive FileKind where
  | file
  | directory
deriving DecidableEq, Repr

/-- Modelled from the spec: a scanned entry's metadata (§3 `FileEntry`):
kind, size, and modification timestamp (one-second resolution, as `Nat`). -/
structure FileEntry where
  kind : FileKind
  size : Nat
  mtime : Nat
deriving DecidableEq, Repr

/-- A snapshot maps relative paths to entries (§3 `Snapshot`), shallowly
embedded as an association list. -/
abbrev Snapshot := List (String × FileEntry)

/-- A tree on disk, same representation as a snapshot but unfiltered. -/
abbrev Tree := List (String × FileEntry)

/-- Modelled from the spec: the five plan actions (§3 `Action`). -/
inductive Action where
  | createDir (path : String)
  | copy (path : String)
  | update (path : String)
  | delete (path : String)
  | skip (path : String)
deriving DecidableEq, Repr

/-- The path an action is about. -/
def Action.path : Action → String
  | .createDir p => p
  | .copy p => p
  | .update p => p
  | .delete p => p
  | .skip p => p

/-- Modelled from the spec: the per-source-path decision of the DiffPlanner
(§4.3): absent in dest → copy; present and the source entry is a directory →
skip; present as a file and the source is newer or differs in size → update;
otherwise (identical timestamp and size) → skip. -/
def entryAction (d : Snapshot) (p : String) (e : FileEntry) : Action :=
  match lookupA d p with
  | none => .copy p
  | some de =>
    match e.kind with
    | .directory => .skip p
    | .file => if e.mtime > de.mtime || e.size != de.size then .update p else .skip p

/-- Split a character list on `/` into path components. -/
def splitSlash : List Char → List (List Char)
  | [] => [[]]
  | c :: rest =>
    if c = '/' then [] :: splitSlash rest
    else
      match splitSlash rest with
      | [] => [[c]]
      | g :: gs => (c :: g) :: gs

/-- Cumulative joins of all proper ancestor component lists: for components
`[a, b, c]` this yields `[a, a/b]`. -/
def ancestorJoins : List (List Char) → List (List Char)
  | [] => []
  | [_] => []
  | x :: rest => x :: (ancestorJoins rest).map (fun s => x ++ '/' :: s)

/-- Parent directories of a relative path, outermost first: parent
directories of `a/b/c.txt` are `a` and `a/b`. -/
def parentDirs (p : String) : List String :=
  (ancestorJoins (splitSlash p.toList)).map (fun cs => String.mk cs)

/-- The per-path actions of a plan, one per source-snapshot entry, in scan
order (§4.3). -/
def perActions (d s : Snapshot) : List Action :=
  s.map (fun pe => entryAction d pe.1 pe.2)

/-- The target of a copy or update action, if any. -/
def copyUpdatePath : Action → Option String
  | .copy p => some p
  | .update p => some p
  | _ => none

/-- Parent directories needing creation: parents of every copy or update
target, deduplicated (§4.3). -/
def dirList (d s : Snapshot) : List String :=
  (((perActions d s).filterMap copyUpdatePath).map parentDirs).flatten.dedup

/-- Destination paths to delete: present in the destination snapshot and
absent from the source snapshot, both taken under the same filter (§4.3). -/
def delPaths (d s : Snapshot) : List String :=
  (d.filter (fun pe => (lookupA s pe.1).isNone)).map Prod.fst

/-- Modelled from the spec: the DiffPlanner (§4.3). Parent-directory
creations precede the per-path actions; deletions of destination-only
paths come last. -/
def plan (s d : Snapshot) : List Action :=
  (dirList d s).map Action.createDir ++ perActions d s ++ (delPaths d s).map Action.delete

/-- Entry recorded for a directory created by `Action.createDir`. -/
def defaultDirEntry : FileEntry :=
  { kind := .directory, size := 0, mtime := 0 }

/-- Install the source snapshot's entry at `p` into the tree (the effect of
a copy or update); a no-op when the source has no entry there. -/
def installFrom (s : Snapshot) (t : Tree) (p : String) : Tree :=
  match lookupA s p with
  | some e => setA t p e
  | none => t

/-- Modelled from the spec: the effect of one action on the destination tree
(§4.4). Directory creation is a no-op when the path already exists; copy and
update install the source entry (metadata preserved); delete removes the
path; skip does nothing. -/
def applyAction (s : Snapshot) (t : Tree) (a : Action) : Tree :=
  match a with
  | .createDir p => if (lookupA t p).isSome then t else setA t p defaultDirEntry
  | .copy p => installFrom s t p
  | .update p => installFrom s t p
  | .delete p => eraseA t p
  | .skip _ => t

/-- Modelled from the spec: the DirectoryScanner composed with the filter
(§4.2): the snapshot of a tree keeps exactly the entries whose relative
path the rule accepts. -/
def scan (t : Tree) (r : FilterRule) : Snapshot :=
  t.filter (fun pe => r.matches pe.1)

/-- Modelled from the spec: one run of a Job (§2): scan both trees under the
same rule, plan, and execute the plan against the destination tree. -/
def runJob (srcT destT : Tree) (r : FilterRule) : Tree :=
  (plan (scan srcT r) (scan destT r)).foldl (applyAction (scan srcT r)) destT

/-- On a real filesystem every ancestor directory of an existing path
exists; a tree is well-formed when its key set is closed under parents. -/
def parentsPresent (t : Tree) : Prop :=
  ∀ p ∈ keys t, ∀ d ∈ parentDirs p, d ∈ keys t

instance (t : Tree) : Decidable (parentsPresent t) := by
  unfold parentsPresent
  infer_instance

/-- Is the action a skip? -/
def isSkip : Action → Bool
  | .skip _ => true
  | _ => false

/-- A filesystem mapping paths to file contents (byte lists), for the
byte-level copy model. -/
abbrev ByteStore := List (String × List Nat)

/-- Modelled from the spec: the temporary path used by the executor's
write-then-rename discipline (§4.4), in the same directory as the target. -/
def tmpName (p : String) : String := p ++ ".tmp"

/-- One micro-step of a streaming copy: append one byte to the temporary
file, or atomically rename the temporary file into place. -/
inductive MicroOp where
  | writeChunk (b : Nat)
  | renameIntoPlace
deriving DecidableEq, Repr

/-- Modelled from the spec: a copy of `content` streams every byte to the
temporary path and only then renames it into place (§4.4). -/
def copySteps (content : List Nat) : List MicroOp :=
  content.map MicroOp.writeChunk ++ [MicroOp.renameIntoPlace]

/-- Effect of one copy micro-step targeting final path `p`. -/
def applyMicro (p : String) (fs : ByteStore) (op : MicroOp) : ByteStore :=
  match op with
  | .writeChunk b => setA fs (tmpName p) (((lookupA fs (tmpName p)).getD []) ++ [b])
  | .renameIntoPlace =>
    eraseA (setA fs p ((lookupA fs (tmpName p)).getD [])) (tmpName p)

/-- The filesystem after a crash that interrupts the copy after exactly `n`
micro-steps (a crash-free run is `n ≥ content.length + 1`). -/
def crashAt (p : String) (content : List Nat) (fs : ByteStore) (n : Nat) : ByteStore :=
  ((copySteps content).take n).foldl (applyMicro p) fs

/-- Modelled from the spec: the SyncExecutor (§4.4, §7). `env` decides
whether each action's filesystem operation succeeds (permission errors,
I/O failures). The executor applies actions in plan order, records every
action with its individual outcome, and keeps going after a failure. -/
def execute (env : Action → Bool) (s : Snapshot) (t : Tree) :
    List Action → Tree × List (Action × Bool)
  | [] => (t, [])
  | a :: rest =>
    let res := execute env s (if env a then applyAction s t a else t) rest
    (res.1, (a, env a) :: res.2)

/-- Example source tree for witnesses: a directory and a file inside it. -/
def exSrcTree : Tree := [("a", ⟨.directory, 0, 5⟩), ("a/x.txt", ⟨.file, 3, 10⟩)]

/-- Example destination tree for witnesses: one stale unmanaged file. -/
def exDestTree : Tree := [("b", ⟨.file, 1, 1⟩)]

/-- The trivial rule: no restriction from any list. -/
def exRule : FilterRule := ⟨[], [], [], []⟩

/-- A rule whose non-empty `only` list rejects everything but "x". -/
def c1Rule : FilterRule := ⟨[fun s => s == "x"], [], [], []⟩

end Dirsync

namespace SyncChromium

/-- The `java_srcs` path table of `script/sync_chromium.py`. -/
def java_srcs : List String := [
  "base/android/java/src",
  "chrome/android/java/src",
  "chrome/android/webapk/libs/client/src",
  "chrome/android/webapk/libs/common/src",
  "components/autofill/android/java/src",
  "components/background_task_scheduler/android/java/src",
  "components/bookmarks/common/android/java/src",
  "components/crash/android/java/src",
  "components/dom_distiller/content/browser/android/java/src",
  "components/dom_distiller/core/android/java/src",
  "components/feature_engagement_tracker/internal/android/java/src",
  "components/feature_engagement_tracker/public/android/java/src",
  "components/gcm_driver/android/java/src",
  "components/gcm_driver/instance_id/android/java/src",
  "components/invalidation/impl/android/java/src",
  "components/location/android/java/src",
  "components/minidump_uploader/android/java/src",
  "components/navigation_interception/android/java/src",
  "components/ntp_tiles/android/java/src",
  "components/offline_items_collection/core/android/java/src",
  "components/payments/content/android/java/src",
  "components/policy/android/java/src",
  "components/precache/android/java/src",
  "components/safe_browsing_db/android/java/src",
  "components/safe_json/android/java/src",
  "components/signin/core/browser/android/java/src",
  "components/spellcheck/browser/android/java/src",
  "components/sync/android/java/src",
  "components/url_formatter/android/java/src",
  "components/variations/android/java/src",
  "components/web_contents_delegate_android/android/java/src",
  "components/web_restrictions/browser/java/src",
  "content/public/android/java/src",
  "device/bluetooth/android/java/src",
  "device/gamepad/android/java/src",
  "device/generic_sensor/android/java/src",
  "device/geolocation/android/java/src",
  "device/power_save_blocker/android/java/src",
  "device/sensors/android/java/src",
  "device/usb/android/java/src",
  "media/base/android/java/src",
  "media/capture/content/android/java/src",
  "media/capture/video/android/java/src",
  "media/midi/java/src",
  "mojo/android/system/src",
  "mojo/public/java/bindings/src",
  "mojo/public/java/system/src",
  "net/android/java/src",
  "printing/android/java/src",
  "services/device/android/java/src",
  "services/device/battery/android/java/src",
  "services/device/nfc/android/java/src",
  "services/device/public/java/src",
  "services/device/screen_orientation/android/java/src",
  "services/device/time_zone_monitor/android/java/src",
  "services/device/vibration/android/java/src",
  "services/service_manager/public/java/src",
  "services/shape_detection/android/java/src",
  "third_party/android_data_chart/java/src",
  "third_party/android_media/java/src",
  "third_party/android_protobuf/src/java/src/device/main/java",
  "third_party/android_protobuf/src/java/src/main/java",
  "third_party/android_swipe_refresh/java/src",
  "third_party/cacheinvalidation/src/java",
  "third_party/custom_tabs_client/src/customtabs/src",
  "third_party/gif_player/src",
  "third_party/jsr-305/src/ri/src/main/java",
  "third_party/leakcanary/src/leakcanary-android-no-op/src/main/java",
  "ui/android/java/src"]

/-- The `res_dirs` table: chromium res dir and library res name. -/
def res_dirs : List (String × String) := [
  ("chrome/android/java/res", "chrome_res"),
  ("third_party/android_media/java/res", "androidmedia_res"),
  ("content/public/android/java/res", "content_res"),
  ("media/base/android/java/res", "media_res"),
  ("chrome/android/java/res_chromium", "chrome_res"),
  ("components/web_contents_delegate_android/android/java/res", "delegate_res"),
  ("components/autofill/android/java/res", "autofill_res"),
  ("third_party/android_data_chart/java/res", "datausagechart_res"),
  ("ui/android/java/res", "ui_res")]

/-- The `gen_res_dirs` table: generated res dir (under out/buildtype) and
library res name. -/
def gen_res_dirs : List (String × String) := [
  ("gen/chrome/app/policy/android", "chrome_res"),
  ("gen/ui/android/ui_strings_grd_grit_output", "ui_res"),
  ("gen/components/strings/java/res", "delegate_res"),
  ("gen/content/public/android/content_strings_grd_grit_output", "content_res"),
  ("gen/chrome/android/chrome_strings_grd_grit_output", "chrome_res"),
  ("gen/chrome/java/res", "chrome_res"),
  ("gen/components/strings/java/res", "autofill_res"),
  ("gen/third_party/android_tools/google_play_services_basement_java/res", "gms_res")]

/-- The `jar_dirs` table. -/
def jar_dirs : List String := [
  "third_party/gvr-android-sdk",
  "third_party/android_tools"]

/-- The `so_files` table: shared libraries copied one by one. -/
def so_files : List String := [
  "libaccessibility.cr.so",
  "libanimation.cr.so",
  "libbase.cr.so",
  "libbase_i18n.cr.so",
  "libbindings.cr.so",
  "libblink_android_mojo_bindings_shared.cr.so",
  "libblink_core.cr.so",
  "libblink_modules.cr.so",
  "libblink_mojo_bindings_shared.cr.so",
  "libblink_offscreen_canvas_mojo_bindings_shared.cr.so",
  "libblink_platform.cr.so",
  "libblink_web.cr.so",
  "libbluetooth.cr.so",
  "libboringssl.cr.so",
  "libcaptive_portal.cr.so",
  "libcapture_base.cr.so",
  "libcapture_lib.cr.so",
  "libcc_animation.cr.so",
  "libcc_base.cr.so",
  "libcc_blink.cr.so",
  "libcc.cr.so",
  "libcc_debug.cr.so",
  "libcc_ipc.cr.so",
  "libcc_paint.cr.so",
  "libcc_surfaces.cr.so",
  "libcdm_manager.cr.so",
  "libchrome.cr.so",
  "libchromium_sqlite3.cr.so",
  "libcloud_policy_proto_generated_compile.cr.so",
  "libcodec.cr.so",
  "libcolor_space.cr.so",
  "libcommon.cr.so",
  "libcompositor.cr.so",
  "libcontent_common_mojo_bindings_shared.cr.so",
  "libcontent.cr.so",
  "libcpp.cr.so",
  "libcrcrypto.cr.so",
  "libc++_shared.so",
  "libdevice_base.cr.so",
  "libdevice_event_log.cr.so",
  "libdevice_gamepad.cr.so",
  "libdevices.cr.so",
  "libdevice_vr.cr.so",
  "libdevice_vr_mojo_bindings_blink.cr.so",
  "libdevice_vr_mojo_bindings.cr.so",
  "libdevice_vr_mojo_bindings_shared.cr.so",
  "libdiscardable_memory_client.cr.so",
  "libdiscardable_memory_common.cr.so",
  "libdiscardable_memory_service.cr.so",
  "libdisplay_compositor.cr.so",
  "libdisplay.cr.so",
  "libdisplay_types.cr.so",
  "libdisplay_util.cr.so",
  "libdomain_reliability.cr.so",
  "libembedder.cr.so",
  "libevents_base.cr.so",
  "libevents.cr.so",
  "libffmpeg.cr.so",
  "libfingerprint.cr.so",
  "libframe_sinks.cr.so",
  "libfreetype.cr.so",
  "libgeneric_sensor.cr.so",
  "libgeneric_sensor_public_interfaces_shared.cr.so",
  "libgeolocation.cr.so",
  "libgeometry.cr.so",
  "libgeometry_skia.cr.so",
  "libgesture_detection.cr.so",
  "libgfx.cr.so",
  "libgfx_ipc_color.cr.so",
  "libgfx_ipc.cr.so",
  "libgfx_ipc_geometry.cr.so",
  "libgfx_ipc_skia.cr.so",
  "libgin.cr.so",
  "libgin_features.cr.so",
  "libgles2_c_lib.cr.so",
  "libgles2_implementation.cr.so",
  "libgles2_utils.cr.so",
  "libgl_init.cr.so",
  "libgl_in_process_context.cr.so",
  "libgl_wrapper.cr.so",
  "libgpu.cr.so",
  "libicui18n.cr.so",
  "libicuuc.cr.so",
  "libipc.cr.so",
  "libipc_mojom.cr.so",
  "libipc_mojom_shared.cr.so",
  "libjs.cr.so",
  "libkeyed_service_content.cr.so",
  "libkeyed_service_core.cr.so",
  "libmanager.cr.so",
  "libmedia_blink.cr.so",
  "libmedia.cr.so",
  "libmedia_gpu.cr.so",
  "libmedia_mojo_services.cr.so",
  "libmessage_center.cr.so",
  "libmidi.cr.so",
  "libmojo_common_lib.cr.so",
  "libmojo_public_system_cpp.cr.so",
  "libmojo_public_system.cr.so",
  "libmojo_system_impl.cr.so",
  "libnative_theme.cr.so",
  "libnet.cr.so",
  "libnet_with_v8.cr.so",
  "libonc.cr.so",
  "libplatform.cr.so",
  "libpolicy_component.cr.so",
  "libpolicy_proto.cr.so",
  "libpower_save_blocker.cr.so",
  "libprefs.cr.so",
  "libprinting.cr.so",
  "libprotobuf_lite.cr.so",
  "libproxy_config.cr.so",
  "libpublic.cr.so",
  "librange.cr.so",
  "libresource_coordinator_cpp.cr.so",
  "libresource_coordinator_public_interfaces_internal_shared.cr.so",
  "libsandbox_services.cr.so",
  "libseccomp_bpf.cr.so",
  "libsensors.cr.so",
  "libservice_manager_cpp.cr.so",
  "libservice_manager_cpp_types.cr.so",
  "libservice_manager_mojom_blink.cr.so",
  "libservice_manager_mojom_constants_blink.cr.so",
  "libservice_manager_mojom_constants.cr.so",
  "libservice_manager_mojom_constants_shared.cr.so",
  "libservice_manager_mojom.cr.so",
  "libservice_manager_mojom_shared.cr.so",
  "libsessions.cr.so",
  "libshared_memory_support.cr.so",
  "libshell_dialogs.cr.so",
  "libskia.cr.so",
  "libsnapshot.cr.so",
  "libsql.cr.so",
  "libstartup_tracing.cr.so",
  "libstorage_browser.cr.so",
  "libstorage_common.cr.so",
  "libsurface.cr.so",
  "libtracing.cr.so",
  "libui_android.cr.so",
  "libui_base.cr.so",
  "libui_base_ime.cr.so",
  "libui_data_pack.cr.so",
  "libui_touch_selection.cr.so",
  "liburl.cr.so",
  "liburl_ipc.cr.so",
  "liburl_matcher.cr.so",
  "libuser_manager.cr.so",
  "libuser_prefs.cr.so",
  "libv8.cr.so",
  "libv8_libbase.cr.so",
  "libwebdata_common.cr.so",
  "libweb_dialogs.cr.so",
  "libwtf.cr.so"]

/-- The `data_files` table: pak and data files copied one by one. -/
def data_files : List String := [
  "chrome_100_percent.pak",
  "icudtl.dat",
  "natives_blob.bin",
  "resources.pak",
  "snapshot_blob.bin"]

/-- POSIX `os.path.join` of two components. -/
def joinP (a b : String) : String := a ++ "/" ++ b

/-- One invocation of the `dirsync.sync` primitive, as issued by the
orchestration: source root, destination root, direction, and the four
pattern lists passed as keyword arguments (absent lists are empty). -/
structure SyncCall where
  source : String
  dest : String
  direction : String
  only : List String := []
  exclude : List String := []
  incl : List String := []
  ignore : List String := []
deriving DecidableEq, Repr

/-- One `shutil.copy(source, destDir)` invocation; `name` is the source's
basename (every table entry is a bare filename, so the basename of the
joined source path is the entry itself). -/
structure CopyCall where
  source : String
  destDir : String
  name : String
deriving DecidableEq, Repr

/-- `constants.DIR_APP_ROOT/src/main/java`. -/
def app_java_dir (appRoot : String) : String :=
  joinP (joinP (joinP appRoot "src") "main") "java"

/-- `out/<buildtype>` under the chromium root. -/
def out_dir (chromiumRoot buildtype : String) : String :=
  joinP (joinP chromiumRoot "out") buildtype

/-- `constants.DIR_LIBRARIES_ROOT/<name>/src/main/res`. -/
def res_dest (libsRoot sub : String) : String :=
  joinP (joinP (joinP (joinP libsRoot sub) "src") "main") "res"

/-- `constants.DIR_APP_ROOT/src/main/jniLibs/armeabi-v7a`. -/
def app_lib_dir (appRoot : String) : String :=
  joinP (joinP (joinP (joinP appRoot "src") "main") "jniLibs") "armeabi-v7a"

/-- `constants.DIR_APP_ROOT/src/main/assets`. -/
def assets_dir (appRoot : String) : String :=
  joinP (joinP (joinP appRoot "src") "main") "assets"

/-- The sync calls issued by `sync_java_files`. -/
def sync_java_files (appRoot chromiumRoot : String) : List SyncCall :=
  java_srcs.map (fun d =>
    { source := joinP chromiumRoot d
      dest := app_java_dir appRoot
      direction := "sync" })

/-- The sync calls issued by `sync_res_files`: the plain res dirs, then the
generated res dirs with the values-* exclude / zh-rCN include arguments. -/
def sync_res_files (libsRoot chromiumRoot buildtype : String) : List SyncCall :=
  res_dirs.map (fun rd =>
    { source := joinP chromiumRoot rd.1
      dest := res_dest libsRoot rd.2
      direction := "sync" }) ++
  gen_res_dirs.map (fun rd =>
    { source := joinP (out_dir chromiumRoot buildtype) rd.1
      dest := res_dest libsRoot rd.2
      direction := "sync"
      exclude := ["values-\\S+"]
      incl := ["values-zh-rCN"] })

/-- The sync calls issued by `sync_jar_files`: only jars, ignoring interface
jars and android support jars. -/
def sync_jar_files (appRoot chromiumRoot buildtype : String) : List SyncCall :=
  jar_dirs.map (fun jd =>
    { source := joinP (joinP (out_dir chromiumRoot buildtype) "lib.java") jd
      dest := joinP appRoot "libs"
      direction := "sync"
      only := [".+\\.jar$"]
      ignore := [".+interface\\.jar$", "^android_support_", "^support-annotations"] })

/-- The sync calls issued by `sync_chromium_res_files` (defined in the
script; its call in `main` is commented out). -/
def sync_chromium_res_files (libsRoot chromiumRoot buildtype : String) : List SyncCall :=
  [{ source := joinP (joinP (joinP (joinP chromiumRoot "chrome") "android") "java") "res"
     dest := res_dest libsRoot "chrome_res"
     direction := "sync" },
   { source :=
       joinP (joinP (joinP (joinP chromiumRoot "chrome") "android") "java") "res_chromium"
     dest := res_dest libsRoot "chrome_res"
     direction := "sync" },
   { source := joinP (joinP (joinP (out_dir chromiumRoot buildtype) "gen") "chrome")
       (joinP "java" "res")
     dest := res_dest libsRoot "chrome_res"
     direction := "sync" },
   { source := joinP (joinP (joinP (joinP (joinP (out_dir chromiumRoot buildtype) "obj")
       "chrome") "chrome_strings_grd.gen") "chrome_strings_grd") "res_grit"
     dest := res_dest libsRoot "chrome_res"
     direction := "sync"
     exclude := ["values-\\S+"]
     incl := ["values-zh-rCN"] }]

/-- The sync calls issued by `sync_ui_res_files` (call commented out). -/
def sync_ui_res_files (libsRoot chromiumRoot buildtype : String) : List SyncCall :=
  [{ source := joinP (joinP (joinP (joinP chromiumRoot "ui") "android") "java") "res"
     dest := res_dest libsRoot "ui_res"
     direction := "sync" },
   { source := joinP (joinP (joinP (joinP (joinP (joinP (out_dir chromiumRoot buildtype)
       "obj") "ui") "android") "ui_strings_grd.gen") "ui_strings_grd") "res_grit"
     dest := res_dest libsRoot "ui_res"
     direction := "sync"
     exclude := ["values-\\S+"]
     incl := ["values-zh-rCN"] }]

/-- The sync calls issued by `sync_content_res_files` (call commented out). -/
def sync_content_res_files (libsRoot chromiumRoot buildtype : String) : List SyncCall :=
  [{ source :=
       joinP (joinP (joinP (joinP (joinP chromiumRoot "content") "public") "android") "java")
         "res"
     dest := res_dest libsRoot "content_res"
     direction := "sync" },
   { source := joinP (joinP (joinP (joinP (joinP (out_dir chromiumRoot buildtype) "obj")
       "content") "content_strings_grd.gen") "content_strings_grd") "res_grit"
     dest := res_dest libsRoot "content_res"
     direction := "sync"
     exclude := ["values-\\S+"]
     incl := ["values-zh-rCN"] }]

/-- The sync call issued by `sync_datausagechart_res_files` (call commented
out). -/
def sync_datausagechart_res_files (libsRoot chromiumRoot : String) : List SyncCall :=
  [{ source := joinP (joinP (joinP (joinP chromiumRoot "third_party") "android_data_chart")
       "java") "res"
     dest := res_dest libsRoot "datausagechart_res"
     direction := "sync" }]

/-- The sync call issued by `sync_androidmedia_res_files` (call commented
out). -/
def sync_androidmedia_res_files (libsRoot chromiumRoot : String) : List SyncCall :=
  [{ source := joinP (joinP (joinP (joinP chromiumRoot "third_party") "android_media")
       "java") "res"
     dest := res_dest libsRoot "androidmedia_res"
     direction := "sync" }]

/-- The sync call issued by `sync_manifest_files`. -/
def sync_manifest_files (appRoot chromiumRoot buildtype : String) : List SyncCall :=
  [{ source := joinP (out_dir chromiumRoot buildtype) "gen/chrome/android/chrome_public_apk"
     dest := joinP (joinP appRoot "src") "main"
     direction := "sync"
     only := ["AndroidManifest\\.xml"] }]

/-- The sync call issued by `sync_data_files` (its `shutil.copy` loop is
`sync_data_files_copies` below). -/
def sync_data_files_sync (appRoot chromiumRoot buildtype : String) : List SyncCall :=
  [{ source := joinP (out_dir chromiumRoot buildtype) "locales"
     dest := assets_dir appRoot
     direction := "sync" }]

/-- The `shutil.copy` calls issued by `sync_so_files`: one per `so_files`
entry, unconditionally, straight into the jniLibs directory. -/
def sync_so_files (appRoot chromiumRoot buildtype : String) : List CopyCall :=
  so_files.map (fun f =>
    { source := joinP (out_dir chromiumRoot buildtype) f
      destDir := app_lib_dir appRoot
      name := f })

/-- The `shutil.copy` calls issued by `sync_data_files`: one per
`data_files` entry, unconditionally, into the assets directory. -/
def sync_data_files_copies (appRoot chromiumRoot buildtype : String) : List CopyCall :=
  data_files.map (fun f =>
    { source := joinP (out_dir chromiumRoot buildtype) f
      destDir := assets_dir appRoot
      name := f })

/-- The `dirsync.sync` invocations of one uncommented `main` run, in call
order (`sync_so_files` and the copy loop of `sync_data_files` contribute no
sync calls). -/
def mainSyncCalls (appRoot libsRoot chromiumRoot buildtype : String) : List SyncCall :=
  sync_java_files appRoot chromiumRoot ++
  sync_res_files libsRoot chromiumRoot buildtype ++
  sync_jar_files appRoot chromiumRoot buildtype ++
  sync_manifest_files appRoot chromiumRoot buildtype ++
  sync_data_files_sync appRoot chromiumRoot buildtype

/-- Every `dirsync.sync` call site in the script, including the functions
whose invocation in `main` is commented out. -/
def allSyncCallSites (appRoot libsRoot chromiumRoot buildtype : String) : List SyncCall :=
  mainSyncCalls appRoot libsRoot chromiumRoot buildtype ++
  sync_chromium_res_files libsRoot chromiumRoot buildtype ++
  sync_ui_res_files libsRoot chromiumRoot buildtype ++
  sync_content_res_files libsRoot chromiumRoot buildtype ++
  sync_datausagechart_res_files libsRoot chromiumRoot ++
  sync_androidmedia_res_files libsRoot chromiumRoot

/-- Observable outcome of a `main` run: diagnostics printed, explicit exit
code if any, and the sync and copy calls performed. -/
structure MainResult where
  printed : List String
  exitCode : Option Nat
  syncCalls : List SyncCall
  copyCalls : List CopyCall
deriving DecidableEq, Repr

/-- The `main` function of the script: an unknown `--buildtype` prints a
diagnostic and exits with status 0 before any sync step; otherwise all sync
steps run in order. -/
def main (appRoot libsRoot chromiumRoot buildtype : String) : MainResult :=
  if buildtype = "Default" ∨ buildtype = "Release" then
    { printed := []
      exitCode := none
      syncCalls := mainSyncCalls appRoot libsRoot chromiumRoot buildtype
      copyCalls := sync_so_files appRoot chromiumRoot buildtype ++
        sync_data_files_copies appRoot chromiumRoot buildtype }
  else
    { printed := ["buildtype argument value must be Default or Release"]
      exitCode := some 0
      syncCalls := []
      copyCalls := [] }

/-- A filesystem for the copy loops: paths to content tokens. -/
def FileStore := String → Option Nat

/-- The destination file written by a `shutil.copy` call: the destination
directory joined with the source's basename. -/
def destPath (c : CopyCall) : String := joinP c.destDir c.name

/-- Run a list of `shutil.copy` calls in order: each one reads the source
(raising `IOError`, modelled as `Except.error`, when it is missing) and
unconditionally writes the destination file, returning the final store and
the ordered list of destination paths written. -/
def runCopies (fs : FileStore) : List CopyCall → Except String (FileStore × List String)
  | [] => .ok (fs, [])
  | c :: rest =>
    match fs c.source with
    | none => .error c.source
    | some v =>
      (runCopies (fun q => if q = destPath c then some v else fs q) rest).map
        (fun res => (res.1, destPath c :: res.2))

end SyncChromium

namespace Dirsync

@[simp]
theorem lookupA_nil {α : Type u} (p : String) : lookupA ([] : List (String × α)) p = none := rfl

theorem lookupA_cons {α : Type u} (q : String) (v : α) (t : List (String × α)) (p : String) :
    lookupA ((q, v) :: t) p = if q = p then some v else lookupA t p := rfl

@[simp]
theorem lookupA_setA_self {α : Type u} (t : List (String × α)) (p : String) (v : α) :
    lookupA (setA t p v) p = some v := by
  simp [setA, lookupA_cons]

theorem lookupA_eraseA_ne {α : Type u} (t : List (String × α)) (p q : String) (h : q ≠ p) :
    lookupA (eraseA t p) q = lookupA t q := by
  induction t with
  | nil => rfl
  | cons hd tl ih =>
    obtain ⟨k, v⟩ := hd
    by_cases hk : k = p
    · subst hk
      simp [eraseA, lookupA_cons, List.filter_cons, Ne.symm h] at *
      exact ih
    · simp [eraseA, List.filter_cons, hk] at *
      rw [lookupA_cons, lookupA_cons]
      by_cases hkq : k = q
      · simp [hkq]
      · simp [hkq]
        exact ih

theorem lookupA_setA_ne {α : Type u} (t : List (String × α)) (p q : String) (v : α) (h : q ≠ p) :
    lookupA (setA t p v) q = lookupA t q := by
  rw [setA, lookupA_cons, if_neg (Ne.symm h)]
  exact lookupA_eraseA_ne t p q h

theorem lookupA_eraseA_self {α : Type u} (t : List (String × α)) (p : String) :
    lookupA (eraseA t p) p = none := by
  induction t with
  | nil => rfl
  | cons hd tl ih =>
    obtain ⟨k, v⟩ := hd
    by_cases hk : k = p
    · simpa [eraseA, List.filter_cons, hk] using ih
    · simpa [eraseA, List.filter_cons, hk, lookupA_cons] using ih

theorem lookupA_eq_none_iff {α : Type u} (t : List (String × α)) (p : String) :
    lookupA t p = none ↔ p ∉ keys t := by
  induction t with
  | nil => simp [keys]
  | cons hd tl ih =>
    obtain ⟨k, v⟩ := hd
    by_cases hk : k = p
    · subst hk
      simp [lookupA_cons, keys]
    · rw [lookupA_cons, if_neg hk, ih]
      have hmem : p ∈ keys ((k, v) :: tl) ↔ p = k ∨ p ∈ keys tl := by simp [keys]
      constructor
      · intro h hc
        rcases hmem.mp hc with hc | hc
        · exact hk hc.symm
        · exact h hc
      · intro h hc
        exact h (hmem.mpr (Or.inr hc))

theorem lookupA_isSome_of_mem {α : Type u} {t : List (String × α)} {pe : String × α}
    (h : pe ∈ t) : (lookupA t pe.1).isSome := by
  cases hl : lookupA t pe.1 with
  | some v => rfl
  | none =>
    exact absurd (List.mem_map_of_mem Prod.fst h) ((lookupA_eq_none_iff t pe.1).mp hl)

theorem lookupA_of_mem_nodup {α : Type u} {t : List (String × α)} {p : String} {v : α}
    (hnd : (keys t).Nodup) (hm : (p, v) ∈ t) : lookupA t p = some v := by
  induction t with
  | nil => cases hm
  | cons hd tl ih =>
    obtain ⟨k, w⟩ := hd
    rw [keys, List.map_cons, List.nodup_cons] at hnd
    rcases List.mem_cons.mp hm with h | h
    · obtain ⟨hk, hw⟩ := Prod.mk.inj h
      subst hk
      subst hw
      simp [lookupA_cons]
    · have hkp : k ≠ p := by
        intro he
        subst he
        exact hnd.1 (by simpa [keys] using List.mem_map_of_mem Prod.fst h)
      rw [lookupA_cons, if_neg hkp]
      exact ih hnd.2 h

theorem mem_keys_iff {α : Type u} (t : List (String × α)) (p : String) :
    p ∈ keys t ↔ ∃ v, (p, v) ∈ t := by
  constructor
  · intro h
    rcases List.mem_map.mp h with ⟨⟨q, v⟩, hq, he⟩
    exact ⟨v, by simpa [← he] using hq⟩
  · rintro ⟨v, hv⟩
    exact List.mem_map_of_mem Prod.fst hv

/-- C3 counterexample: the claim "a path matching both an exclude and an
include pattern is included (with `only` empty)" is false as stated: with an
`ignore` pattern also matching the path, precedence step 3 still excludes it.
At the concrete input: `c3Rule` has empty `only`, its `exclude` and `incl`
lists both match "a", yet `matches "a"` returns `false`. -/
theorem include_overrides_exclude_needs_ignore :
    c3Rule.only = [] ∧
    c3Rule.exclude.any (fun q => q "a") = true ∧
    c3Rule.incl.any (fun q => q "a") = true ∧
    c3Rule.matches "a" = false := by
  refine ⟨rfl, rfl, rfl, ?_⟩
  rfl

/-- C3 (amended): include overrides exclude. If the `only` list is empty or
some `only` pattern matches, some `exclude` pattern matches, some `incl`
pattern matches, and no `ignore` pattern matches, then the path is included. -/
theorem include_overrides_exclude (r : FilterRule) (p : String)
    (honly : r.only = [] ∨ r.only.any (fun q => q p) = true)
    (hex : r.exclude.any (fun q => q p) = true)
    (hinc : r.incl.any (fun q => q p) = true)
    (hig : r.ignore.any (fun q => q p) = false) :
    r.matches p = true := by
  unfold FilterRule.matches
  have h1 : (!r.only.isEmpty && !(r.only.any (fun q => q p))) = false := by
    rcases honly with h | h
    · simp [h]
    · simp [h]
  rw [h1]
  simp [hex, hinc, hig]

/-- Witness for the amended C3 theorem at a concrete rule and path. -/
theorem include_overrides_exclude_witness :
    (⟨[], [fun s => s == "b"], [fun s => s == "b"], []⟩ : FilterRule).matches "b" = true :=
  include_overrides_exclude ⟨[], [fun s => s == "b"], [fun s => s == "b"], []⟩ "b"
    (Or.inl rfl) rfl rfl rfl

theorem perActions_cons (d : Snapshot) (pe : String × FileEntry) (l : Snapshot) :
    perActions d (pe :: l) = entryAction d pe.1 pe.2 :: perActions d l := rfl

theorem entryAction_cases (d : Snapshot) (p : String) (e : FileEntry) :
    entryAction d p e = .copy p ∨ entryAction d p e = .update p ∨ entryAction d p e = .skip p := by
  unfold entryAction
  cases lookupA d p with
  | none => exact Or.inl rfl
  | some de =>
    obtain ⟨k, sz, mt⟩ := e
    cases k with
    | file =>
      dsimp only
      split
      · exact Or.inr (Or.inl rfl)
      · exact Or.inr (Or.inr rfl)
    | directory => exact Or.inr (Or.inr rfl)

theorem entryAction_path (d : Snapshot) (p : String) (e : FileEntry) :
    (entryAction d p e).path = p := by
  rcases entryAction_cases d p e with h | h | h <;> rw [h] <;> rfl

theorem entryAction_congr {d d' : Snapshot} (p : String) (e : FileEntry)
    (h : lookupA d p = lookupA d' p) : entryAction d p e = entryAction d' p e := by
  unfold entryAction
  rw [h]

theorem lookupA_isSome_of_entryAction_skip {d : Snapshot} {p : String} {e : FileEntry}
    (h : entryAction d p e = .skip p) : (lookupA d p).isSome := by
  cases hl : lookupA d p with
  | some de => rfl
  | none =>
    unfold entryAction at h
    rw [hl] at h
    cases h

theorem applyAction_createDir (s : Snapshot) (t : Tree) (p : String) :
    applyAction s t (.createDir p) =
      if (lookupA t p).isSome then t else setA t p defaultDirEntry := rfl

theorem applyAction_copy (s : Snapshot) (t : Tree) (p : String) :
    applyAction s t (.copy p) = installFrom s t p := rfl

theorem applyAction_update (s : Snapshot) (t : Tree) (p : String) :
    applyAction s t (.update p) = installFrom s t p := rfl

theorem applyAction_delete (s : Snapshot) (t : Tree) (p : String) :
    applyAction s t (.delete p) = eraseA t p := rfl

theorem applyAction_skip (s : Snapshot) (t : Tree) (p : String) :
    applyAction s t (.skip p) = t := rfl

theorem installFrom_of_some {s : Snapshot} {p : String} {e : FileEntry} (t : Tree)
    (h : lookupA s p = some e) : installFrom s t p = setA t p e := by
  unfold installFrom
  rw [h]

theorem installFrom_of_none {s : Snapshot} {p : String} (t : Tree)
    (h : lookupA s p = none) : installFrom s t p = t := by
  unfold installFrom
  rw [h]

theorem lookupA_installFrom_ne (s : Snapshot) (t : Tree) (q p : String) (h : q ≠ p) :
    lookupA (installFrom s t q) p = lookupA t p := by
  unfold installFrom
  cases lookupA s q with
  | none => rfl
  | some e => exact lookupA_setA_ne t q p e (Ne.symm h)

theorem applyAction_lookupA_ne (s : Snapshot) (t : Tree) (a : Action) (p : String)
    (h : a.path ≠ p) : lookupA (applyAction s t a) p = lookupA t p := by
  cases a with
  | createDir q =>
    have hq : q ≠ p := h
    rw [applyAction_createDir]
    split
    · rfl
    · exact lookupA_setA_ne t q p defaultDirEntry (Ne.symm hq)
  | copy q =>
    have hq : q ≠ p := h
    rw [applyAction_copy]
    exact lookupA_installFrom_ne s t q p hq
  | update q =>
    have hq : q ≠ p := h
    rw [applyAction_update]
    exact lookupA_installFrom_ne s t q p hq
  | delete q =>
    have hq : q ≠ p := h
    rw [applyAction_delete]
    exact lookupA_eraseA_ne t q p (Ne.symm hq)
  | skip q => rfl

theorem foldl_lookupA_ne (s : Snapshot) (l : List Action) (t : Tree) (p : String)
    (h : ∀ a ∈ l, a.path ≠ p) :
    lookupA (l.foldl (applyAction s) t) p = lookupA t p := by
  induction l generalizing t with
  | nil => rfl
  | cons a l ih =>
    rw [List.foldl_cons, ih _ (fun b hb => h b (List.mem_cons_of_mem a hb))]
    exact applyAction_lookupA_ne s t a p (h a (List.mem_cons_self a l))

theorem lookupA_foldl_createDirs (s : Snapshot) (ds : List String) (t : Tree) (p : String) :
    lookupA ((ds.map Action.createDir).foldl (applyAction s) t) p =
      if p ∈ ds ∧ lookupA t p = none then some defaultDirEntry else lookupA t p := by
  induction ds generalizing t with
  | nil => simp
  | cons d ds ih =>
    rw [List.map_cons, List.foldl_cons, ih]
    by_cases hdp : d = p
    · subst hdp
      cases hl : lookupA t d with
      | some v =>
        have ht : applyAction s t (.createDir d) = t := by
          rw [applyAction_createDir, hl]
          rfl
        rw [ht, hl]
        simp [hl]
      | none =>
        have ht : applyAction s t (.createDir d) = setA t d defaultDirEntry := by
          rw [applyAction_createDir, hl]
          rfl
        rw [ht, lookupA_setA_self]
        simp
    · have ht : lookupA (applyAction s t (.createDir d)) p = lookupA t p :=
        applyAction_lookupA_ne s t _ p hdp
      rw [ht]
      by_cases hmem : p ∈ ds ∧ lookupA t p = none
      · rw [if_pos hmem, if_pos ⟨List.mem_cons_of_mem d hmem.1, hmem.2⟩]
      · rw [if_neg hmem, if_neg]
        intro hc
        rcases List.mem_cons.mp hc.1 with he | he
        · exact hdp he.symm
        · exact hmem ⟨he, hc.2⟩

theorem lookupA_foldl_deletes (s : Snapshot) (dp : List String) (t : Tree) (p : String) :
    lookupA ((dp.map Action.delete).foldl (applyAction s) t) p =
      if p ∈ dp then none else lookupA t p := by
  induction dp generalizing t with
  | nil => simp
  | cons d dp ih =>
    rw [List.map_cons, List.foldl_cons, ih]
    have happ : applyAction s t (.delete d) = eraseA t d := rfl
    by_cases hdp : d = p
    · subst hdp
      rw [happ]
      by_cases hm : d ∈ dp
      · simp [hm]
      · simp [hm, lookupA_eraseA_self]
    · rw [happ, lookupA_eraseA_ne t d p (Ne.symm hdp)]
      by_cases hm : p ∈ dp
      · rw [if_pos hm, if_pos (List.mem_cons_of_mem d hm)]
      · rw [if_neg hm, if_neg]
        intro hc
        rcases List.mem_cons.mp hc with he | he
        · exact hdp he.symm
        · exact hm he

theorem mem_keys_of_mem_perActions {d : Snapshot} {l : Snapshot} {a : Action}
    (h : a ∈ perActions d l) : a.path ∈ keys l := by
  rcases List.mem_map.mp h with ⟨pe, hpe, he⟩
  rw [← he, entryAction_path]
  exact List.mem_map_of_mem Prod.fst hpe

theorem foldl_perActions_not_mem (s d : Snapshot) (l : Snapshot) (t : Tree) (p : String)
    (h : p ∉ keys l) :
    lookupA ((perActions d l).foldl (applyAction s) t) p = lookupA t p := by
  refine foldl_lookupA_ne s _ t p ?_
  intro a ha he
  exact h (he ▸ mem_keys_of_mem_perActions ha)

theorem foldl_perActions_mem (s d : Snapshot) (l : Snapshot) (t : Tree) (p : String)
    (e : FileEntry) (hnd : (keys l).Nodup) (hm : (p, e) ∈ l) (hsome : lookupA s p = some e) :
    lookupA ((perActions d l).foldl (applyAction s) t) p =
      if isSkip (entryAction d p e) then lookupA t p else some e := by
  induction l generalizing t with
  | nil => cases hm
  | cons pe l ih =>
    rw [perActions_cons, List.foldl_cons]
    rw [keys, List.map_cons, List.nodup_cons] at hnd
    by_cases hp : pe.1 = p
    · have hpe : pe = (p, e) := by
        rcases List.mem_cons.mp hm with he | he
        · exact he.symm
        · exact absurd (hp ▸ List.mem_map_of_mem Prod.fst he) hnd.1
      subst hpe
      have hrest :
          lookupA ((perActions d l).foldl (applyAction s) (applyAction s t (entryAction d p e))) p
            = lookupA (applyAction s t (entryAction d p e)) p :=
        foldl_perActions_not_mem s d l _ p hnd.1
      rw [hrest]
      rcases entryAction_cases d p e with hc | hc | hc <;> rw [hc]
      · rw [applyAction_copy, installFrom_of_some t hsome, lookupA_setA_self]
        rfl
      · rw [applyAction_update, installFrom_of_some t hsome, lookupA_setA_self]
        rfl
      · rfl
    · have hm' : (p, e) ∈ l := by
        rcases List.mem_cons.mp hm with he | he
        · exact absurd (congrArg Prod.fst he).symm hp
        · exact he
      have hhd : lookupA (applyAction s t (entryAction d pe.1 pe.2)) p = lookupA t p :=
        applyAction_lookupA_ne s t _ p (by rw [entryAction_path]; exact hp)
      rw [ih _ hnd.2 hm', hhd]

theorem lookupA_filter_key {α : Type u} (t : List (String × α)) (f : String → Bool)
    (p : String) :
    lookupA (t.filter (fun pe => f pe.1)) p = if f p then lookupA t p else none := by
  induction t with
  | nil => simp
  | cons hd tl ih =>
    obtain ⟨k, v⟩ := hd
    by_cases hk : k = p
    · subst hk
      cases hf : f k with
      | true => simp [List.filter_cons, hf, lookupA_cons]
      | false => simp [List.filter_cons, hf, ih, lookupA_cons]
    · cases hf : f k with
      | true => simp [List.filter_cons, hf, lookupA_cons, hk, ih]
      | false => simp [List.filter_cons, hf, lookupA_cons, hk, ih]

theorem mem_keys_filter {α : Type u} (t : List (String × α)) (f : String → Bool)
    (q : String) :
    q ∈ keys (t.filter (fun pe => f pe.1)) ↔ q ∈ keys t ∧ f q = true := by
  constructor
  · intro h
    rcases (mem_keys_iff _ q).mp h with ⟨v, hv⟩
    rcases List.mem_filter.mp hv with ⟨h1, h2⟩
    exact ⟨(mem_keys_iff t q).mpr ⟨v, h1⟩, h2⟩
  · rintro ⟨h1, h2⟩
    rcases (mem_keys_iff t q).mp h1 with ⟨v, hv⟩
    exact (mem_keys_iff _ q).mpr ⟨v, List.mem_filter.mpr ⟨hv, h2⟩⟩

theorem keys_filter_nodup {α : Type u} (t : List (String × α)) (f : (String × α) → Bool)
    (h : (keys t).Nodup) : (keys (t.filter f)).Nodup :=
  List.Nodup.sublist (List.Sublist.map Prod.fst (List.filter_sublist t)) h

theorem mem_delPaths {d s : Snapshot} {q : String} :
    q ∈ delPaths d s ↔ q ∈ keys d ∧ lookupA s q = none := by
  unfold delPaths
  constructor
  · intro h
    rcases List.mem_map.mp h with ⟨pe, hpe, he⟩
    rcases List.mem_filter.mp hpe with ⟨hmem, hcond⟩
    subst he
    refine ⟨List.mem_map_of_mem Prod.fst hmem, ?_⟩
    simpa using hcond
  · rintro ⟨hk, hn⟩
    rcases (mem_keys_iff d q).mp hk with ⟨v, hv⟩
    refine List.mem_map.mpr ⟨(q, v), List.mem_filter.mpr ⟨hv, ?_⟩, rfl⟩
    simp [hn]

theorem copyUpdatePath_entryAction {d : Snapshot} {p : String} {e : FileEntry} {q : String}
    (h : copyUpdatePath (entryAction d p e) = some q) : q = p := by
  rcases entryAction_cases d p e with hc | hc | hc <;> rw [hc] at h <;>
    simp [copyUpdatePath] at h
  · exact h.symm
  · exact h.symm

theorem mem_dirList {d s : Snapshot} {q : String} (h : q ∈ dirList d s) :
    ∃ p, p ∈ keys s ∧ q ∈ parentDirs p := by
  unfold dirList at h
  rcases List.mem_flatten.mp (List.mem_dedup.mp h) with ⟨l, hl, hql⟩
  rcases List.mem_map.mp hl with ⟨pth, hpth, he⟩
  rcases List.mem_filterMap.mp hpth with ⟨a, ha, hcu⟩
  rcases List.mem_map.mp ha with ⟨pe, hpe, hae⟩
  have hp : pth = pe.1 := copyUpdatePath_entryAction (hae ▸ hcu)
  subst he
  subst hp
  exact ⟨pe.1, List.mem_map_of_mem Prod.fst hpe, hql⟩

theorem delete_not_mem_perActions {d : Snapshot} {l : Snapshot} {p : String} :
    Action.delete p ∉ perActions d l := by
  intro h
  rcases List.mem_map.mp h with ⟨pe, _, hae⟩
  rcases entryAction_cases d pe.1 pe.2 with hc | hc | hc <;> rw [hc] at hae <;> cases hae

theorem mem_scan {t : Tree} {r : FilterRule} {pe : String × FileEntry} :
    pe ∈ scan t r ↔ pe ∈ t ∧ r.matches pe.1 = true := List.mem_filter

theorem lookupA_scan (t : Tree) (r : FilterRule) (p : String) :
    lookupA (scan t r) p = if r.matches p then lookupA t p else none :=
  lookupA_filter_key t (fun x => r.matches x) p

theorem plan_eq (s d : Snapshot) :
    plan s d =
      (dirList d s).map Action.createDir ++ perActions d s ++ (delPaths d s).map Action.delete :=
  rfl

theorem entryAction_eq_skip {d : Snapshot} {p : String} {e : FileEntry}
    (h : isSkip (entryAction d p e) = true) : entryAction d p e = .skip p := by
  rcases entryAction_cases d p e with hc | hc | hc
  · rw [hc] at h
    simp [isSkip] at h
  · rw [hc] at h
    simp [isSkip] at h
  · exact hc

theorem lookupA_runJob_of_mem (srcT destT : Tree) (r : FilterRule) (p : String)
    (e : FileEntry) (hnd : (keys srcT).Nodup) (hmem : (p, e) ∈ scan srcT r) :
    lookupA (runJob srcT destT r) p =
      if isSkip (entryAction (scan destT r) p e) then lookupA destT p else some e := by
  have hnds : (keys (scan srcT r)).Nodup := keys_filter_nodup srcT _ hnd
  have hsome : lookupA (scan srcT r) p = some e := lookupA_of_mem_nodup hnds hmem
  have hnotdel : p ∉ delPaths (scan destT r) (scan srcT r) := by
    intro hdel
    have h2 := (mem_delPaths.mp hdel).2
    rw [hsome] at h2
    cases h2
  have hmatch : r.matches p = true := (mem_scan.mp hmem).2
  unfold runJob
  rw [plan_eq, List.foldl_append, List.foldl_append, lookupA_foldl_deletes,
    if_neg hnotdel, foldl_perActions_mem _ _ _ _ p e hnds hmem hsome]
  by_cases hskip : isSkip (entryAction (scan destT r) p e) = true
  · rw [if_pos hskip, if_pos hskip, lookupA_foldl_createDirs, if_neg]
    intro hc
    have hb := entryAction_eq_skip hskip
    have hsd0 := lookupA_isSome_of_entryAction_skip hb
    rw [lookupA_scan, if_pos hmatch, hc.2] at hsd0
    cases hsd0
  · rw [if_neg hskip, if_neg hskip]

theorem lookupA_runJob_not_scanned (srcT destT : Tree) (r : FilterRule) (q : String)
    (hpp : parentsPresent srcT) (hmatch : r.matches q = true)
    (hq : lookupA (scan srcT r) q = none) :
    lookupA (runJob srcT destT r) q = none := by
  have hqkeys : q ∉ keys (scan srcT r) := (lookupA_eq_none_iff _ q).mp hq
  unfold runJob
  rw [plan_eq, List.foldl_append, List.foldl_append, lookupA_foldl_deletes]
  by_cases hdel : q ∈ delPaths (scan destT r) (scan srcT r)
  · rw [if_pos hdel]
  · rw [if_neg hdel]
    have hqd0 : q ∉ keys (scan destT r) := by
      intro hk
      exact hdel (mem_delPaths.mpr ⟨hk, hq⟩)
    have hdestT : lookupA destT q = none := by
      apply (lookupA_eq_none_iff destT q).mpr
      intro hk
      exact hqd0 ((mem_keys_filter destT _ q).mpr ⟨hk, hmatch⟩)
    have hnodir : ¬(q ∈ dirList (scan destT r) (scan srcT r) ∧ lookupA destT q = none) := by
      intro hc
      rcases mem_dirList hc.1 with ⟨p', hp's, hqpar⟩
      have hp'src : p' ∈ keys srcT := ((mem_keys_filter srcT _ p').mp hp's).1
      exact hqkeys ((mem_keys_filter srcT _ q).mpr ⟨hpp p' hp'src q hqpar, hmatch⟩)
    rw [foldl_perActions_not_mem _ _ _ _ q hqkeys, lookupA_foldl_createDirs, if_neg hnodir,
      hdestT]

theorem foldl_preserves_unmatched (s : Snapshot) (l : List Action) (t : Tree) (p : String)
    (e : FileEntry)
    (hl : ∀ a ∈ l, a.path ≠ p ∨ (∃ q, a = .createDir q) ∨ (∃ q, a = .skip q))
    (ht : lookupA t p = some e) :
    lookupA (l.foldl (applyAction s) t) p = some e := by
  induction l generalizing t with
  | nil => exact ht
  | cons a l ih =>
    rw [List.foldl_cons]
    refine ih _ (fun b hb => hl b (List.mem_cons_of_mem a hb)) ?_
    rcases hl a (List.mem_cons_self a l) with hne | ⟨q, rfl⟩ | ⟨q, rfl⟩
    · rw [applyAction_lookupA_ne s t a p hne]
      exact ht
    · by_cases hqp : q = p
      · subst hqp
        rw [applyAction_createDir, if_pos (by rw [ht]; rfl)]
        exact ht
      · rw [applyAction_lookupA_ne s t (.createDir q) p hqp]
        exact ht
    · rw [applyAction_skip]
      exact ht

theorem snd_eq_of_mem_nodup {t : List (String × FileEntry)} (hnd : (keys t).Nodup)
    {p : String} {e v : FileEntry} (hm : (p, e) ∈ t) (hv : (p, v) ∈ t) : v = e := by
  have h1 := lookupA_of_mem_nodup hnd hm
  have h2 := lookupA_of_mem_nodup hnd hv
  rw [h1] at h2
  exact (Option.some.inj h2).symm

/-- C1: scoped deletion. For any run of a Job, a path the FilterRule does
not match is never the target of a `delete` action in the plan (deletions
are only emitted for destination paths passing the same filter as the
source scan), and a destination entry at such a path survives the run
unchanged, even when the path is absent from the source tree. -/
theorem scoped_deletion (srcT destT : Tree) (r : FilterRule) (p : String) (e : FileEntry)
    (hm : r.matches p = false) :
    (∀ a ∈ plan (scan srcT r) (scan destT r), a ≠ Action.delete p) ∧
    (lookupA destT p = some e → lookupA (runJob srcT destT r) p = some e) := by
  constructor
  · intro a ha he
    subst he
    rw [plan_eq] at ha
    rcases List.mem_append.mp ha with ha | hdel
    · rcases List.mem_append.mp ha with hdirs | hper
      · rcases List.mem_map.mp hdirs with ⟨q, _, hq⟩
        cases hq
      · exact delete_not_mem_perActions hper
    · rcases List.mem_map.mp hdel with ⟨q, hq, he2⟩
      have hq' : q = p := by
        cases he2
        rfl
      subst hq'
      have hk := (mem_delPaths.mp hq).1
      have hmatch := ((mem_keys_filter destT _ q).mp hk).2
      rw [hm] at hmatch
      cases hmatch
  · intro hsome
    unfold runJob
    refine foldl_preserves_unmatched _ _ _ p e ?_ hsome
    intro a ha
    rw [plan_eq] at ha
    rcases List.mem_append.mp ha with ha | hdel
    · rcases List.mem_append.mp ha with hdirs | hper
      · rcases List.mem_map.mp hdirs with ⟨q, _, hq⟩
        exact Or.inr (Or.inl ⟨q, hq.symm⟩)
      · left
        have hk := mem_keys_of_mem_perActions hper
        have hmatch := ((mem_keys_filter srcT _ _).mp hk).2
        intro he2
        rw [he2, hm] at hmatch
        cases hmatch
    · rcases List.mem_map.mp hdel with ⟨q, hq, he2⟩
      left
      have hk := (mem_delPaths.mp hq).1
      have hmatch := ((mem_keys_filter destT _ q).mp hk).2
      rw [← he2]
      show q ≠ p
      intro he3
      rw [he3, hm] at hmatch
      cases hmatch

/-- C2: idempotence. If the source tree's key set is closed under parent
directories (true of any real filesystem tree) and has no duplicate keys,
then re-running a Job immediately after a completed run plans only `skip`
actions: no copy, update, createDir or delete, so the destination is
unchanged by the second run. -/
theorem runJob_idempotent (srcT destT : Tree) (r : FilterRule)
    (hpp : parentsPresent srcT) (hnd : (keys srcT).Nodup) :
    (plan (scan srcT r) (scan (runJob srcT destT r) r)).all isSkip = true := by
  have key1 : ∀ pe ∈ scan srcT r,
      entryAction (scan (runJob srcT destT r) r) pe.1 pe.2 = .skip pe.1 := by
    intro pe hmem
    obtain ⟨p, e⟩ := pe
    have hmatch : r.matches p = true := (mem_scan.mp hmem).2
    have hL : lookupA (scan (runJob srcT destT r) r) p = lookupA (runJob srcT destT r) p := by
      rw [lookupA_scan, if_pos hmatch]
    have hrj := lookupA_runJob_of_mem srcT destT r p e hnd hmem
    by_cases hskip : isSkip (entryAction (scan destT r) p e) = true
    · rw [if_pos hskip] at hrj
      have hd0 : lookupA (scan destT r) p = lookupA destT p := by
        rw [lookupA_scan, if_pos hmatch]
      have hcong : lookupA (scan (runJob srcT destT r) r) p = lookupA (scan destT r) p := by
        rw [hL, hrj, hd0]
      rw [entryAction_congr p e hcong]
      exact entryAction_eq_skip hskip
    · rw [if_neg hskip] at hrj
      have hsel : lookupA (scan (runJob srcT destT r) r) p = some e := by
        rw [hL, hrj]
      unfold entryAction
      rw [hsel]
      obtain ⟨k, sz, mt⟩ := e
      cases k with
      | directory => rfl
      | file => simp
  have key2 : delPaths (scan (runJob srcT destT r) r) (scan srcT r) = [] := by
    unfold delPaths
    have hf : (scan (runJob srcT destT r) r).filter
        (fun pe => (lookupA (scan srcT r) pe.1).isNone) = [] := by
      apply List.filter_eq_nil_iff.mpr
      intro pe hpe
      have hmem1 : pe ∈ runJob srcT destT r := (mem_scan.mp hpe).1
      have hmatch : r.matches pe.1 = true := (mem_scan.mp hpe).2
      have hsome1 : (lookupA (runJob srcT destT r) pe.1).isSome :=
        lookupA_isSome_of_mem hmem1
      intro hnone
      have hq : lookupA (scan srcT r) pe.1 = none := by simpa using hnone
      rw [lookupA_runJob_not_scanned srcT destT r pe.1 hpp hmatch hq] at hsome1
      cases hsome1
    rw [hf]
    rfl
  have hall : ∀ a ∈ perActions (scan (runJob srcT destT r) r) (scan srcT r),
      isSkip a = true := by
    intro a ha
    rcases List.mem_map.mp ha with ⟨pe, hpe, hae⟩
    rw [← hae, key1 pe hpe]
    rfl
  have hdir2 : dirList (scan (runJob srcT destT r) r) (scan srcT r) = [] := by
    unfold dirList
    have h0 : (perActions (scan (runJob srcT destT r) r) (scan srcT r)).filterMap
        copyUpdatePath = [] := by
      apply List.filterMap_eq_nil_iff.mpr
      intro a ha
      have hsk := hall a ha
      cases a with
      | skip q => rfl
      | createDir q => simp [isSkip] at hsk
      | copy q => simp [isSkip] at hsk
      | update q => simp [isSkip] at hsk
      | delete q => simp [isSkip] at hsk
    rw [h0]
    rfl
  rw [plan_eq, key2, hdir2]
  simp only [List.map_nil, List.nil_append, List.append_nil]
  exact List.all_eq_true.mpr hall

/-- C5: DiffPlanner action selection for a path present in the source
snapshot: absent in the destination snapshot → a `copy` of it is planned;
present as a stale file (source newer or size differs) → an `update`;
present as an up-to-date file (same timestamp and size) → a `skip`;
present with the source entry a directory → a `skip` and never an
`update`. -/
theorem plan_action_selection (s d : Snapshot) (p : String) (e : FileEntry)
    (hnd : (keys s).Nodup) (hmem : (p, e) ∈ s) :
    (lookupA d p = none → Action.copy p ∈ plan s d) ∧
    (∀ de, lookupA d p = some de → e.kind = .file →
      de.mtime < e.mtime ∨ e.size ≠ de.size → Action.update p ∈ plan s d) ∧
    (∀ de, lookupA d p = some de → e.kind = .file → e.mtime = de.mtime →
      e.size = de.size → Action.skip p ∈ plan s d) ∧
    (∀ de, lookupA d p = some de → e.kind = .directory → de.kind = .directory →
      Action.skip p ∈ plan s d ∧ Action.update p ∉ plan s d) := by
  have hper : entryAction d p e ∈ perActions d s := List.mem_map.mpr ⟨(p, e), hmem, rfl⟩
  have hsub : ∀ a ∈ perActions d s, a ∈ plan s d := by
    intro a ha
    rw [plan_eq]
    exact List.mem_append.mpr (Or.inl (List.mem_append.mpr (Or.inr ha)))
  refine ⟨?_, ?_, ?_, ?_⟩
  · intro h
    have hact : entryAction d p e = .copy p := by
      unfold entryAction
      rw [h]
    exact hact ▸ hsub _ hper
  · intro de hde hkind hupd
    have hcond : (e.mtime > de.mtime || e.size != de.size) = true := by
      rcases hupd with h | h
      · simp [h]
      · simp [h]
    have hact : entryAction d p e = .update p := by
      unfold entryAction
      rw [hde, hkind]
      exact if_pos hcond
    exact hact ▸ hsub _ hper
  · intro de hde hkind hmt hsz
    have hcond : (e.mtime > de.mtime || e.size != de.size) = false := by
      simp [hmt, hsz]
    have hact : entryAction d p e = .skip p := by
      unfold entryAction
      rw [hde, hkind]
      exact if_neg (by simp [hcond])
    exact hact ▸ hsub _ hper
  · intro de hde hkind hdekind
    have hact : entryAction d p e = .skip p := by
      unfold entryAction
      rw [hde, hkind]
    refine ⟨hact ▸ hsub _ hper, ?_⟩
    intro hmemU
    rw [plan_eq] at hmemU
    rcases List.mem_append.mp hmemU with hml | hdel
    · rcases List.mem_append.mp hml with hdirs | hperU
      · rcases List.mem_map.mp hdirs with ⟨q, _, hq⟩
        cases hq
      · rcases List.mem_map.mp hperU with ⟨pe, hpe, hae⟩
        have hpath : pe.1 = p := by
          have h1 := entryAction_path d pe.1 pe.2
          rw [hae] at h1
          exact h1.symm
        have hv : (p, pe.2) ∈ s := by
          rw [← hpath]
          exact hpe
        have he2 : pe.2 = e := snd_eq_of_mem_nodup hnd hmem hv
        rw [hpath, he2, hact] at hae
        cases hae
    · rcases List.mem_map.mp hdel with ⟨q, _, hq⟩
      cases hq

theorem tmpName_ne (p : String) : tmpName p ≠ p := by
  intro h
  have hlen := congrArg String.length h
  rw [tmpName, String.length_append] at hlen
  have h4 : (".tmp" : String).length = 4 := rfl
  rw [h4] at hlen
  omega

theorem getD_writes (p : String) (l : List Nat) (fs : ByteStore) :
    (lookupA ((l.map MicroOp.writeChunk).foldl (applyMicro p) fs) (tmpName p)).getD [] =
      ((lookupA fs (tmpName p)).getD []) ++ l := by
  induction l generalizing fs with
  | nil => simp
  | cons b l ih =>
    rw [List.map_cons, List.foldl_cons, ih]
    have hstep : (lookupA (applyMicro p fs (.writeChunk b)) (tmpName p)).getD [] =
        ((lookupA fs (tmpName p)).getD []) ++ [b] := by
      show (lookupA (setA fs (tmpName p) _) (tmpName p)).getD [] = _
      rw [lookupA_setA_self]
      rfl
    rw [hstep, List.append_assoc]
    rfl

theorem lookupA_writes_other (p q : String) (hq : q ≠ tmpName p) (l : List Nat)
    (fs : ByteStore) :
    lookupA ((l.map MicroOp.writeChunk).foldl (applyMicro p) fs) q = lookupA fs q := by
  induction l generalizing fs with
  | nil => rfl
  | cons b l ih =>
    rw [List.map_cons, List.foldl_cons, ih]
    show lookupA (setA fs (tmpName p) _) q = _
    exact lookupA_setA_ne fs (tmpName p) q _ hq

/-- C6: copy atomicity. Interrupt the temp-then-rename copy after any number
of micro-steps: the final destination path holds either its old value or the
complete new content — never a partially written file posing as a completed
copy. (The temporary path is assumed initially absent.) -/
theorem copy_atomic (p : String) (content : List Nat) (fs : ByteStore) (n : Nat)
    (htmp : lookupA fs (tmpName p) = none) :
    lookupA (crashAt p content fs n) p = lookupA fs p ∨
    lookupA (crashAt p content fs n) p = some content := by
  by_cases hn : n ≤ content.length
  · left
    unfold crashAt copySteps
    rw [List.take_append_of_le_length (by simpa using hn), ← List.map_take]
    exact lookupA_writes_other p p (fun h => tmpName_ne p h.symm) _ fs
  · right
    have hlen : (copySteps content).length ≤ n := by
      simp [copySteps]
      omega
    unfold crashAt
    rw [List.take_of_length_le hlen]
    unfold copySteps
    rw [List.foldl_append]
    show lookupA (applyMicro p ((content.map MicroOp.writeChunk).foldl (applyMicro p) fs)
      .renameIntoPlace) p = some content
    have hc : (lookupA ((content.map MicroOp.writeChunk).foldl (applyMicro p) fs)
        (tmpName p)).getD [] = content := by
      rw [getD_writes, htmp]
      rfl
    show lookupA (eraseA (setA _ p _) (tmpName p)) p = some content
    rw [lookupA_eraseA_ne _ (tmpName p) p (fun h => tmpName_ne p h.symm),
      lookupA_setA_self, hc]

/-- C6 witness: a concrete two-byte copy interrupted after one micro-step
leaves the previous destination content in place. -/
theorem copy_atomic_witness :
    lookupA (crashAt "f" [7, 8] [("f", [9])] 1) "f" = lookupA [("f", [9])] "f" ∨
    lookupA (crashAt "f" [7, 8] [("f", [9])] 1) "f" = some [7, 8] :=
  copy_atomic "f" [7, 8] [("f", [9])] 1 rfl

theorem execute_cons (env : Action → Bool) (s : Snapshot) (t : Tree) (a : Action)
    (rest : List Action) :
    execute env s t (a :: rest) =
      ((execute env s (if env a then applyAction s t a else t) rest).1,
        (a, env a) :: (execute env s (if env a then applyAction s t a else t) rest).2) := rfl

/-- C7: execution reporting and non-transactionality. The `ExecutionResult`
component of `execute` enumerates every action of the plan, in order, paired
with its outcome (no failed action is silently dropped); and the final tree
is exactly the fold of the successful actions' effects — a failure at action
k neither rolls back the effects of actions 1..k-1 nor suppresses later
actions (abort-vs-continue policy lives in the caller, not here). -/
theorem execute_reports (env : Action → Bool) (s : Snapshot) (t : Tree)
    (pl : List Action) :
    (execute env s t pl).2 = pl.map (fun a => (a, env a)) ∧
    (execute env s t pl).1 = (pl.filter env).foldl (applyAction s) t := by
  induction pl generalizing t with
  | nil => exact ⟨rfl, rfl⟩
  | cons a rest ih =>
    rw [execute_cons]
    constructor
    · show (a, env a) :: (execute env s _ rest).2 = _
      rw [(ih _).1, List.map_cons]
    · show (execute env s _ rest).1 = _
      rw [(ih _).2]
      cases he : env a with
      | true => simp [List.filter_cons, he]
      | false => simp [List.filter_cons, he]

/-- C1 witness: under a rule not matching "b", a run over an empty source
tree plans no deletion of the unmanaged destination file "b" and leaves it
in place. -/
theorem scoped_deletion_witness :
    c1Rule.matches "b" = false ∧
    ((∀ a ∈ plan (scan [] c1Rule) (scan exDestTree c1Rule), a ≠ Action.delete "b") ∧
      (lookupA exDestTree "b" = some ⟨.file, 1, 1⟩ →
        lookupA (runJob [] exDestTree c1Rule) "b" = some ⟨.file, 1, 1⟩)) :=
  ⟨rfl, scoped_deletion [] exDestTree c1Rule "b" ⟨.file, 1, 1⟩ rfl⟩

/-- C2 witness: a concrete parent-closed duplicate-free source tree; the
second run over the synced destination plans only skips. -/
theorem runJob_idempotent_witness :
    parentsPresent exSrcTree ∧ (keys exSrcTree).Nodup ∧
    (plan (scan exSrcTree exRule) (scan (runJob exSrcTree exDestTree exRule) exRule)).all
      isSkip = true :=
  ⟨by decide, by decide,
    runJob_idempotent exSrcTree exDestTree exRule (by decide) (by decide)⟩

/-- C5 witness: the planner's case analysis at a concrete source entry. -/
theorem plan_action_selection_witness :
    (lookupA exDestTree "a/x.txt" = none →
      Action.copy "a/x.txt" ∈ plan exSrcTree exDestTree) ∧
    (∀ de, lookupA exDestTree "a/x.txt" = some de → FileEntry.kind ⟨.file, 3, 10⟩ = .file →
      de.mtime < FileEntry.mtime ⟨.file, 3, 10⟩ ∨ FileEntry.size ⟨.file, 3, 10⟩ ≠ de.size →
      Action.update "a/x.txt" ∈ plan exSrcTree exDestTree) ∧
    (∀ de, lookupA exDestTree "a/x.txt" = some de → FileEntry.kind ⟨.file, 3, 10⟩ = .file →
      FileEntry.mtime ⟨.file, 3, 10⟩ = de.mtime → FileEntry.size ⟨.file, 3, 10⟩ = de.size →
      Action.skip "a/x.txt" ∈ plan exSrcTree exDestTree) ∧
    (∀ de, lookupA exDestTree "a/x.txt" = some de →
      FileEntry.kind ⟨.file, 3, 10⟩ = .directory → de.kind = .directory →
      Action.skip "a/x.txt" ∈ plan exSrcTree exDestTree ∧
        Action.update "a/x.txt" ∉ plan exSrcTree exDestTree) :=
  plan_action_selection exSrcTree exDestTree "a/x.txt" ⟨.file, 3, 10⟩ (by decide) (by decide)

/-- C4: a non-empty `only` list dominates. If `only` is non-empty and no
pattern in it matches the path, `matches` returns `false`, whatever the
`exclude`, `incl` and `ignore` lists hold. -/
theorem only_dominates (r : FilterRule) (p : String)
    (hne : r.only.isEmpty = false)
    (hno : r.only.any (fun q => q p) = false) :
    r.matches p = false := by
  unfold FilterRule.matches
  simp [hne, hno]

/-- Witness for C4 at a concrete rule and path: the `exclude`, `incl` and
`ignore` lists even all accept the path, and it is still excluded. -/
theorem only_dominates_witness :
    (⟨[fun s => s == "x"], [fun _ => true], [fun _ => true], [fun _ => true]⟩ :
      FilterRule).matches "b" = false :=
  only_dominates
    ⟨[fun s => s == "x"], [fun _ => true], [fun _ => true], [fun _ => true]⟩ "b" rfl rfl

end Dirsync

namespace SyncChromium

/-- C8: every invocation of the sync primitive anywhere in the script — the
steps `main` runs and the commented-out res steps alike — passes the
direction argument `"sync"` (mirror source into destination); no call site
uses any other direction. -/
theorem all_directions_sync (appRoot libsRoot chromiumRoot buildtype : String) :
    (allSyncCallSites appRoot libsRoot chromiumRoot buildtype).all
      (fun c => c.direction == "sync") = true := by
  simp [allSyncCallSites, mainSyncCalls, sync_java_files, sync_res_files, sync_jar_files,
    sync_manifest_files, sync_data_files_sync, sync_chromium_res_files, sync_ui_res_files,
    sync_content_res_files, sync_datausagechart_res_files, sync_androidmedia_res_files,
    List.all_append, List.all_map, Function.comp]
  constructor
  all_goals
    intro x a b hmem heq
    subst heq
    rfl

/-- C9: an unknown `--buildtype` value (neither "Default" nor "Release")
makes `main` print the diagnostic and terminate via `exit(0)` — the success
status — before any sync step runs: no sync call and no copy call is
issued. -/
theorem invalid_buildtype_early_exit (appRoot libsRoot chromiumRoot buildtype : String)
    (h1 : buildtype ≠ "Default") (h2 : buildtype ≠ "Release") :
    main appRoot libsRoot chromiumRoot buildtype =
      { printed := ["buildtype argument value must be Default or Release"]
        exitCode := some 0
        syncCalls := []
        copyCalls := [] } := by
  unfold main
  rw [if_neg]
  rintro (h | h)
  · exact h1 h
  · exact h2 h

/-- C9 witness: `--buildtype Debug` exits early with status 0 and performs
nothing. -/
theorem invalid_buildtype_early_exit_witness :
    main "app" "libs" "cr" "Debug" =
      { printed := ["buildtype argument value must be Default or Release"]
        exitCode := some 0
        syncCalls := []
        copyCalls := [] } :=
  invalid_buildtype_early_exit "app" "libs" "cr" "Debug" (by decide) (by decide)

theorem runCopies_cons (fs : FileStore) (c : CopyCall) (rest : List CopyCall) :
    runCopies fs (c :: rest) =
      match fs c.source with
      | none => .error c.source
      | some v =>
        (runCopies (fun q => if q = destPath c then some v else fs q) rest).map
          (fun res => (res.1, destPath c :: res.2)) := rfl

theorem runCopies_cons_none {fs : FileStore} {c : CopyCall} {rest : List CopyCall}
    (hv : fs c.source = none) : runCopies fs (c :: rest) = .error c.source := by
  rw [runCopies_cons, hv]

theorem runCopies_cons_some {fs : FileStore} {c : CopyCall} {rest : List CopyCall} {v : Nat}
    (hv : fs c.source = some v) :
    runCopies fs (c :: rest) =
      (runCopies (fun q => if q = destPath c then some v else fs q) rest).map
        (fun res => (res.1, destPath c :: res.2)) := by
  rw [runCopies_cons, hv]

theorem runCopies_ok (cs : List CopyCall) (fs : FileStore)
    (h : ∀ c ∈ cs, (fs c.source).isSome) :
    ∃ ff, runCopies fs cs = .ok (ff, cs.map destPath) := by
  induction cs generalizing fs with
  | nil => exact ⟨fs, rfl⟩
  | cons c rest ih =>
    have hc := h c (List.mem_cons_self c rest)
    cases hv : fs c.source with
    | none =>
      rw [hv] at hc
      cases hc
    | some v =>
      have hrest : ∀ c' ∈ rest,
          ((if c'.source = destPath c then some v else fs c'.source) : Option Nat).isSome := by
        intro c' hc'
        by_cases he : c'.source = destPath c
        · simp [he]
        · simp only [he, if_false]
          exact h c' (List.mem_cons_of_mem c hc')
      rcases ih (fun q => if q = destPath c then some v else fs q) hrest with ⟨ff, hff⟩
      refine ⟨ff, ?_⟩
      rw [runCopies_cons_some hv, hff]
      rfl

/-- C10: the `.so`- and data-file steps bypass the mirroring engine. For
every entry of `so_files` (resp. `data_files`), `sync_so_files` (resp. the
copy loop of `sync_data_files`) performs one unconditional `shutil.copy` on
every run — the list of destination writes enumerates every table entry, in
table order, regardless of the destination's prior state (no staleness
check, no skip, no stale-file deletion, no temp-then-rename) — and a copy
whose source file is missing raises an error at that point. -/
theorem so_data_files_bypass_engine (appRoot chromiumRoot buildtype : String)
    (fs : FileStore)
    (hso : ∀ c ∈ sync_so_files appRoot chromiumRoot buildtype, (fs c.source).isSome)
    (hdata : ∀ c ∈ sync_data_files_copies appRoot chromiumRoot buildtype,
      (fs c.source).isSome) :
    (∃ ff, runCopies fs (sync_so_files appRoot chromiumRoot buildtype) =
      .ok (ff, (sync_so_files appRoot chromiumRoot buildtype).map destPath)) ∧
    (∃ ff, runCopies fs (sync_data_files_copies appRoot chromiumRoot buildtype) =
      .ok (ff, (sync_data_files_copies appRoot chromiumRoot buildtype).map destPath)) ∧
    (∀ (fs0 : FileStore) (c : CopyCall) (rest : List CopyCall), fs0 c.source = none →
      runCopies fs0 (c :: rest) = .error c.source) :=
  ⟨runCopies_ok _ fs hso, runCopies_ok _ fs hdata,
    fun _ _ _ hv => runCopies_cons_none hv⟩

/-- C10 witness at a store holding every path: both loops succeed and write
every table entry; and the missing-source error case at a concrete call. -/
theorem so_data_files_bypass_engine_witness :
    (∃ ff, runCopies (fun _ => some 0) (sync_so_files "app" "cr" "Default") =
      .ok (ff, (sync_so_files "app" "cr" "Default").map destPath)) ∧
    (∃ ff, runCopies (fun _ => some 0) (sync_data_files_copies "app" "cr" "Default") =
      .ok (ff, (sync_data_files_copies "app" "cr" "Default").map destPath)) ∧
    (∀ (fs0 : FileStore) (c : CopyCall) (rest : List CopyCall), fs0 c.source = none →
      runCopies fs0 (c :: rest) = .error c.source) :=
  so_data_files_bypass_engine "app" "cr" "Default" (fun _ => some 0)
    (fun _ _ => rfl) (fun _ _ => rfl)

end SyncChromium
